import Mathlib

/-!
Verification development for the SnapAI repository (src/server/main.py,
src/server/server.py, src/server/overlay.py).

The embedding is shallow: each Python function relevant to the verified
properties is translated to an executable Lean definition; side effects
(socket sends, collaborator calls, process launches, sleeps) become
explicit event lists, and the event-loop structure becomes state-passing
or fuel-indexed loops. Timestamps attached to outbound envelopes are
elided, since no property mentions them.
-/

namespace SnapAI

/-- A JSON value, the result of a successful json.loads.  Python dicts are
modelled as association lists with distinct keys; dict.get is first-match
lookup. -/
inductive Json where
  | null
  | bool (b : Bool)
  | num (n : Int)
  | str (s : String)
  | arr (elems : List Json)
  | obj (fields : List (String × Json))

/-- dict.get(key): first binding for key, none when absent. -/
def getField (fields : List (String × Json)) (key : String) : Option Json :=
  fields.lookup key

/-- dict.get(key, default). -/
def getFieldD (fields : List (String × Json)) (key : String) (dflt : Json) : Json :=
  (getField fields key).getD dflt

/-- Python truthiness of a JSON-decoded value: None, False, 0, empty
string, empty list and empty dict are falsy. -/
def truthy : Json → Bool
  | .null => false
  | .bool b => b
  | .num n => n != 0
  | .str s => s != ""
  | .arr elems => !elems.isEmpty
  | .obj fields => !fields.isEmpty

namespace Server

/-- Outbound envelopes sent by server.py on a connection (timestamps
elided). -/
inductive Response where
  | pong
  | screenshot (data : String)
  | aiResponse (answer : String)
  | error (message : String)
deriving DecidableEq, Repr

/-- Observable effects of WebSocketHandler while processing one inbound
message: sends on the connection, and calls into the external
collaborators (AIService.analyze_screenshot, AIService.analyze_text,
ScreenshotService.capture). -/
inductive Event where
  | send (r : Response)
  | callAnalyzeScreenshot (image : Json) (question : Json)
  | callAnalyzeText (question : Json)
  | captureScreen

/-- The external collaborators, treated as opaque pure stubs: the AI
inference functions return answer text, capture returns an optional
base64 image (none models a capture failure). -/
structure Collaborators where
  analyzeScreenshot : Json → Json → String
  analyzeText : Json → String
  capture : Option String

/-- WebSocketHandler._handle_screenshot: capture, then send either the
screenshot envelope or the error envelope. -/
def handleScreenshot (env : Collaborators) : List Event :=
  match env.capture with
  | some img => [.captureScreen, .send (.screenshot img)]
  | none => [.captureScreen, .send (.error "Screenshot failed")]

/-- WebSocketHandler._handle_ai_query: question defaults to the empty
string; image_data is fetched with dict.get and tested for Python
truthiness (if img_data:), so an absent key and a falsy value both take
the error branch. -/
def handleAiQuery (env : Collaborators) (fields : List (String × Json)) : List Event :=
  let question := getFieldD fields "question" (.str "")
  match getField fields "image_data" with
  | some img =>
      if truthy img then
        [.callAnalyzeScreenshot img question,
         .send (.aiResponse (env.analyzeScreenshot img question))]
      else
        [.send (.error "No image provided")]
  | none => [.send (.error "No image provided")]

/-- WebSocketHandler._handle_ai_query_text. -/
def handleAiQueryText (env : Collaborators) (fields : List (String × Json)) : List Event :=
  let question := getFieldD fields "question" (.str "")
  [.callAnalyzeText question, .send (.aiResponse (env.analyzeText question))]

/-- WebSocketHandler._process_message.  The argument is the outcome of
json.loads on the raw text: none models a JSONDecodeError, which is
answered with the "Invalid JSON format" error envelope.  On a decoded
dict, data.get("command") is compared against the four known commands;
no branch matches otherwise and nothing is sent.  On a decoded non-dict
value, data.get raises AttributeError, which the generic handler turns
into an "Error processing message" envelope. -/
def processMessage (env : Collaborators) (msg : Option Json) : List Event :=
  match msg with
  | none => [.send (.error "Invalid JSON format")]
  | some data =>
    match data with
    | .obj fields =>
      match getField fields "command" with
      | some (.str c) =>
          if c = "screenshot" then handleScreenshot env
          else if c = "ai_query" then handleAiQuery env fields
          else if c = "ai_query_text" then handleAiQueryText env fields
          else if c = "ping" then [.send .pong]
          else []
      | _ => []
    | _ => [.send (.error "Error processing message: AttributeError")]

/-- WebSocketHandler.handle_client: the receive loop processes the
inbound messages of one connection in order; _process_message never
closes the connection, so every message of the session is processed. -/
def handleClient (env : Collaborators) (msgs : List (Option Json)) : List Event :=
  match msgs with
  | [] => []
  | m :: rest => processMessage env m ++ handleClient env rest

/-- A concrete collaborator stub used by closed witness statements. -/
def stubEnv : Collaborators :=
  ⟨fun _ _ => "stub answer", fun _ => "stub answer", some "stub image"⟩

end Server

namespace Overlay

/-! ### WebSocketClient (overlay.py) -/

/-- Upper bound on the reconnect delay (WebSocketClient.max_reconnect_delay). -/
def maxReconnectDelay : Nat := 30

/-- Initial value of WebSocketClient.reconnect_delay set in __init__. -/
def initialDelay : Nat := 1

/-- One connection-level event observed by the listen loop: either a
successful connect, or a connection failure
(websockets.ConnectionClosed / ConnectionRefusedError). -/
inductive ConnEvent where
  | success
  | failure
deriving DecidableEq, Repr

/-- Effect of one connection event on self.reconnect_delay in listen():
a successful connect assigns 1; the connection-failure handler sleeps
the current delay and then assigns min(delay * 2, max_reconnect_delay). -/
def stepDelay (d : Nat) : ConnEvent → Nat
  | .success => 1
  | .failure => min (d * 2) maxReconnectDelay

/-- Stored reconnect delay after k consecutive connection failures with
no intervening success, starting from a fresh client or from the state
right after a successful connect (both store delay 1). -/
def delayAfterFailures : Nat → Nat
  | 0 => initialDelay
  | k + 1 => stepDelay (delayAfterFailures k) .failure

/-- The backoff delay the listen loop actually sleeps on a failure is the
stored delay at the moment the failure is handled; on the (k+1)-st
consecutive failure that is the value after k failures. -/
def delayUsedOnFailure (k : Nat) : Nat :=
  delayAfterFailures k

/-- What the listen loop delivers to the registered callback for one
received message (overlay.py lines 176-196); timestamps and exact
formatted strings are represented structurally. -/
inductive Delivery where
  | answer (v : Json)
  | serverError (v : Json)
  | invalidFormat
  | processingError

/-- Routing of one received message in the inner recv loop of listen():
the argument is the outcome of json.loads (none models a
JSONDecodeError, answered to the callback with "Received invalid message
format").  A decoded dict is dispatched on data.get("type"):
"ai_response" delivers data.get("answer", "No answer"); "error" delivers
the formatted "Server error: ..." text built from data.get("message",
"Unknown error"); any other type matches no branch and nothing is
delivered.  A decoded non-dict raises AttributeError in data.get, which
the generic handler reports as "Error processing message: ...". -/
def routeMessage (msg : Option Json) : List Delivery :=
  match msg with
  | none => [.invalidFormat]
  | some data =>
    match data with
    | .obj fields =>
      match getField fields "type" with
      | some (.str t) =>
          if t = "ai_response" then [.answer (getFieldD fields "answer" (.str "No answer"))]
          else if t = "error" then [.serverError (getFieldD fields "message" (.str "Unknown error"))]
          else []
      | _ => []
    | _ => [.processingError]

/-- The mutable client state relevant to stopping: the should_reconnect
flag and the stored reconnect delay. -/
structure ClientState where
  shouldReconnect : Bool
  delay : Nat
deriving DecidableEq, Repr

/-- Control position inside WebSocketClient.listen. -/
inductive Phase where
  | checkLoop
  | connecting
  | receiving
  | backoffSleep
  | stopped
deriving DecidableEq, Repr

/-- Externally visible actions of the listen loop. -/
inductive ClientEvent where
  | connectAttempt
  | sleepSecs (d : Nat)
deriving DecidableEq, Repr

/-- Environment input resolving the nondeterministic steps: outcome of a
connect attempt, and outcome of one recv. -/
inductive EnvInput where
  | connectOk
  | connectFail
  | recvClosed
  | recvMsg
deriving DecidableEq, Repr

/-- WebSocketClient.stop(): sets should_reconnect to False.  (It also
schedules ws.close() when a socket exists; during a backoff sleep
self.ws is None.) -/
def stop (s : ClientState) : ClientState :=
  { s with shouldReconnect := false }

/-- Small-step semantics of the listen() loop.  checkLoop is the while
condition; connecting is the websockets.connect call (a failure lands in
the outer except clause, which returns immediately when
should_reconnect is already false, else proceeds to the backoff sleep);
backoffSleep is the uninterruptible await asyncio.sleep(delay), after
which the delay is doubled and capped and control returns to the while
condition; receiving is the inner recv loop, left for the backoff path
when the connection closes while should_reconnect holds. -/
def stepClient (s : ClientState) (ph : Phase) (input : EnvInput) :
    ClientState × Phase × List ClientEvent :=
  match ph with
  | .checkLoop =>
      if s.shouldReconnect then (s, .connecting, []) else (s, .stopped, [])
  | .connecting =>
      match input with
      | .connectOk => ({ s with delay := 1 }, .receiving, [.connectAttempt])
      | _ =>
          if s.shouldReconnect then (s, .backoffSleep, [.connectAttempt])
          else (s, .stopped, [.connectAttempt])
  | .receiving =>
      match input with
      | .recvClosed =>
          if s.shouldReconnect then (s, .backoffSleep, []) else (s, .stopped, [])
      | _ => (s, .receiving, [])
  | .backoffSleep =>
      ({ s with delay := min (s.delay * 2) maxReconnectDelay }, .checkLoop,
       [.sleepSecs s.delay])
  | .stopped => (s, .stopped, [])

/-- Run n steps of the listen loop under an input stream, collecting the
emitted events. -/
def runClient (env : Nat → EnvInput) : Nat → ClientState × Phase →
    (ClientState × Phase) × List ClientEvent
  | 0, sp => (sp, [])
  | n + 1, (s, ph) =>
      let r := stepClient s ph (env 0)
      let rest := runClient (fun i => env (i + 1)) n (r.1, r.2.1)
      (rest.1, r.2.2 ++ rest.2)

end Overlay

namespace Main

/-! ### ProcessManager (main.py) -/

def STARTUP_WAIT : Nat := 3

def MAX_RESTART_ATTEMPTS : Nat := 3

def RESTART_DELAY : Nat := 2

/-- The two supervised processes. -/
inductive ProcName where
  | server
  | overlay
deriving DecidableEq, Repr

/-- Script / log name for a supervised process. -/
def scriptName : ProcName → String
  | .server => "server"
  | .overlay => "overlay"

/-- The ProcessManager state relevant to the restart policy: the
per-process restart counters, and whether each current process handle is
still running (poll() is None). -/
structure ManagerState where
  serverRestarts : Nat
  overlayRestarts : Nat
  serverAlive : Bool
  overlayAlive : Bool
deriving DecidableEq, Repr

def restartCount (s : ManagerState) : ProcName → Nat
  | .server => s.serverRestarts
  | .overlay => s.overlayRestarts

def bumpCount (s : ManagerState) : ProcName → ManagerState
  | .server => { s with serverRestarts := s.serverRestarts + 1 }
  | .overlay => { s with overlayRestarts := s.overlayRestarts + 1 }

def setAlive (s : ManagerState) (b : Bool) : ProcName → ManagerState
  | .server => { s with serverAlive := b }
  | .overlay => { s with overlayAlive := b }

/-- Externally visible actions of the supervisor. -/
inductive SupAction where
  | waitSecs (n : Nat)
  | launch (name : String)
  | giveUp (name : String)
  | terminateTree (name : String)
deriving DecidableEq, Repr

/-- ProcessManager._try_restart_process for a process whose every
(re)launch succeeds as a spawn: when the counter has reached
MAX_RESTART_ATTEMPTS it gives up and returns False without touching
anything else; otherwise it increments the counter, sleeps
RESTART_DELAY, launches the script (the server path additionally sleeps
STARTUP_WAIT after the launch) and returns True.  The flag
exitsImmediately is the environment: whether the freshly launched
process exits again right away, which the next poll of the monitor loop
observes. -/
def tryRestartProcess (exitsImmediately : Bool) (s : ManagerState) (p : ProcName) :
    Bool × ManagerState × List SupAction :=
  if MAX_RESTART_ATTEMPTS ≤ restartCount s p then
    (false, s, [.giveUp (scriptName p)])
  else
    let s1 := setAlive (bumpCount s p) (!exitsImmediately) p
    let acts :=
      [SupAction.waitSecs RESTART_DELAY, SupAction.launch (scriptName p)] ++
        (match p with
          | .server => [SupAction.waitSecs STARTUP_WAIT]
          | .overlay => [])
    (true, s1, acts)

/-- One iteration of the monitor loop in main() (lines 188-213): check
the server handle, restarting it when it has exited and breaking out of
the loop when the restart budget is exhausted; then likewise for the
overlay; then sleep one second.  The returned Bool is whether the loop
continues (False models the break statements). -/
def mainIteration (envS envO : Bool) (s : ManagerState) :
    ManagerState × List SupAction × Bool :=
  let rs :=
    if s.serverAlive then (true, s, ([] : List SupAction))
    else tryRestartProcess envS s .server
  if rs.1 then
    let ro :=
      if rs.2.1.overlayAlive then (true, rs.2.1, ([] : List SupAction))
      else tryRestartProcess envO rs.2.1 .overlay
    if ro.1 then
      (ro.2.1, rs.2.2 ++ ro.2.2 ++ [.waitSecs 1], true)
    else
      (ro.2.1, rs.2.2 ++ ro.2.2, false)
  else
    (rs.2.1, rs.2.2, false)

/-- The while manager.running loop, fuel-indexed.  The loop only ends
through a break (budget exhausted) or a signal; fuel bounds the number
of iterations considered.  The final Bool records whether the loop
actually broke within the given fuel, in which case more fuel changes
nothing. -/
def mainLoop (envS envO : Bool) : Nat → ManagerState → ManagerState × List SupAction × Bool
  | 0, s => (s, [], false)
  | n + 1, s =>
      let it := mainIteration envS envO s
      if it.2.2 then
        let rest := mainLoop envS envO n it.1
        (rest.1, it.2.1 ++ rest.2.1, rest.2.2)
      else
        (it.1, it.2.1, true)

/-- ProcessManager.cleanup: kill_proc_tree is applied to both stored
handles in turn; afterwards neither process is running. -/
def cleanup (s : ManagerState) : ManagerState × List SupAction :=
  ({ s with serverAlive := false, overlayAlive := false },
   [.terminateTree "Server", .terminateTree "Overlay"])

/-- The whole supervision run from inside main(): the monitor loop
followed by the finally-block cleanup (lines 219-221), which always runs
once the loop has been left. -/
def mainRun (envS envO : Bool) (fuel : Nat) (s : ManagerState) :
    ManagerState × List SupAction :=
  let r := mainLoop envS envO fuel s
  let c := cleanup r.1
  (c.1, r.2.1 ++ c.2)

/-- Decidable check that, in an action trace, every launch of the named
script is immediately preceded by a wait of d seconds (the prev argument
carries the previous element of the scan). -/
def eachLaunchPreceded (d : Nat) (name : String) : Option SupAction → List SupAction → Bool
  | _, [] => true
  | prev, a :: rest =>
      (if a = SupAction.launch name then decide (prev = some (SupAction.waitSecs d)) else true) &&
        eachLaunchPreceded d name (some a) rest

/-! ### kill_proc_tree (main.py, ProcessManager.cleanup) -/

/-- An OS process as cleanup sees it: whether it is currently alive, and
whether it ignores the polite terminate signal (a forceful kill always
succeeds). -/
structure OSProc where
  alive : Bool
  ignoresTerm : Bool
deriving DecidableEq, Repr

/-- terminate(): no effect on a process that ignores the signal or is
already gone. -/
def terminateProc (p : OSProc) : OSProc :=
  if p.ignoresTerm then p else { p with alive := false }

/-- kill(): unconditional. -/
def killProc (p : OSProc) : OSProc :=
  { p with alive := false }

/-- kill_proc_tree from ProcessManager.cleanup: when the parent is
already gone, psutil.Process raises NoSuchProcess and nothing is done.
Otherwise the snapshot of descendants is terminated, then the parent is
terminated, then proc.wait(timeout=3) is awaited: it returns when the
parent has exited, and only on its TimeoutExpired are the children and
then the parent forcefully killed. -/
def killProcTree (parent : OSProc) (children : List OSProc) : OSProc × List OSProc :=
  if parent.alive = false then (parent, children)
  else
    let children1 := children.map terminateProc
    let parent1 := terminateProc parent
    if parent1.alive then
      (killProc parent1, children1.map killProc)
    else
      (parent1, children1)

/-- The whole tree is gone: the parent and every descendant is no longer
alive. -/
def treeDead (r : OSProc × List OSProc) : Prop :=
  r.1.alive = false ∧ ∀ c ∈ r.2, c.alive = false

instance (r : OSProc × List OSProc) : Decidable (treeDead r) := by
  unfold treeDead; infer_instance

end Main

/-! ## Theorems -/

/-- Closed form of the stored reconnect delay after k consecutive
connection failures. -/
theorem delayAfterFailures_eq (k : Nat) :
    Overlay.delayAfterFailures k = min (2 ^ k) 30 := by
  induction k with
  | zero => rfl
  | succ k ih =>
      have hstep : Overlay.delayAfterFailures (k + 1) =
          min (Overlay.delayAfterFailures k * 2) 30 := rfl
      rw [hstep, ih, pow_succ]
      omega

/-- Claim C1: in WebSocketClient the reconnect delay starts at 1; after k
consecutive connection failures with no intervening success the stored delay
equals min(2^k, 30), and that stored value is exactly the sleep the next
failure handling uses; the delay is monotonically non-decreasing across
consecutive failures; and a successful connect resets it to 1. -/
theorem reconnect_backoff_spec :
    Overlay.delayAfterFailures 0 = 1 ∧
    (∀ k, Overlay.delayAfterFailures k = min (2 ^ k) 30) ∧
    (∀ k, Overlay.delayUsedOnFailure k = min (2 ^ k) 30) ∧
    (∀ k, Overlay.delayAfterFailures k ≤ Overlay.delayAfterFailures (k + 1)) ∧
    (∀ d, Overlay.stepDelay d Overlay.ConnEvent.success = 1) := by
  refine ⟨rfl, delayAfterFailures_eq, delayAfterFailures_eq, ?_, fun d => rfl⟩
  intro k
  rw [delayAfterFailures_eq, delayAfterFailures_eq]
  have h := Nat.pow_le_pow_right (by norm_num : 0 < 2) (Nat.le_succ k)
  omega

/-- Claim C5: an inbound message that is not valid JSON is answered with
exactly one error envelope whose message is "Invalid JSON format"; the
connection is not dropped and the receive loop processes the remaining
messages of the session unchanged. -/
theorem invalid_json_single_error (env : Server.Collaborators)
    (rest : List (Option Json)) :
    Server.handleClient env (none :: rest) =
      Server.Event.send (Server.Response.error "Invalid JSON format") ::
        Server.handleClient env rest := rfl

/-- Claim C6: a well-formed JSON envelope (a decoded object) whose command
field is absent, or holds anything other than the strings screenshot,
ai_query, ai_query_text and ping, produces no events at all: no branch of
the dispatch chain matches and nothing is sent back. -/
theorem unknown_command_silently_ignored (env : Server.Collaborators)
    (fields : List (String × Json))
    (h : ∀ c : String, getField fields "command" = some (Json.str c) →
      c ≠ "screenshot" ∧ c ≠ "ai_query" ∧ c ≠ "ai_query_text" ∧ c ≠ "ping") :
    Server.processMessage env (some (Json.obj fields)) = [] := by
  cases hc : getField fields "command" with
  | none => simp [Server.processMessage, hc]
  | some v =>
      cases v with
      | null => simp [Server.processMessage, hc]
      | bool b => simp [Server.processMessage, hc]
      | num n => simp [Server.processMessage, hc]
      | str c =>
          obtain ⟨h1, h2, h3, h4⟩ := h c hc
          simp [Server.processMessage, hc, h1, h2, h3, h4]
      | arr es => simp [Server.processMessage, hc]
      | obj fs => simp [Server.processMessage, hc]

theorem unknown_command_silently_ignored_witness :
    Server.processMessage Server.stubEnv
      (some (Json.obj [("command", Json.str "bogus")])) = [] := by
  apply unknown_command_silently_ignored
  intro c hc
  have hbc : "bogus" = c := by simpa [getField, List.lookup] using hc
  subst hbc
  exact ⟨by decide, by decide, by decide, by decide⟩

/-- Claim C7: an ai_query envelope with no image_data field is answered with
exactly the "No image provided" error envelope, whatever the question field
holds, and the inference collaborator is not called (no analyze event
occurs in the trace). -/
theorem ai_query_missing_image (env : Server.Collaborators)
    (fields : List (String × Json))
    (hcmd : getField fields "command" = some (Json.str "ai_query"))
    (himg : getField fields "image_data" = none) :
    Server.processMessage env (some (Json.obj fields)) =
      [Server.Event.send (Server.Response.error "No image provided")] := by
  simp [Server.processMessage, hcmd, Server.handleAiQuery, himg]

theorem ai_query_missing_image_witness :
    Server.processMessage Server.stubEnv
      (some (Json.obj
        [("command", Json.str "ai_query"), ("question", Json.str "anything")])) =
      [Server.Event.send (Server.Response.error "No image provided")] :=
  ai_query_missing_image _ _ rfl rfl

/-- Claim C10: an ai_query envelope whose image_data field is present but
holds a Python-falsy value, in particular the empty string, takes the same
branch as an absent field: the "No image provided" error envelope is the
only event and the inference collaborator is not called. -/
theorem ai_query_falsy_image (env : Server.Collaborators)
    (fields : List (String × Json)) (v : Json)
    (hcmd : getField fields "command" = some (Json.str "ai_query"))
    (himg : getField fields "image_data" = some v)
    (hfalsy : truthy v = false) :
    Server.processMessage env (some (Json.obj fields)) =
      [Server.Event.send (Server.Response.error "No image provided")] := by
  simp [Server.processMessage, hcmd, Server.handleAiQuery, himg, hfalsy]

theorem ai_query_falsy_image_witness :
    Server.processMessage Server.stubEnv
      (some (Json.obj
        [("command", Json.str "ai_query"), ("question", Json.str "q"),
         ("image_data", Json.str "")])) =
      [Server.Event.send (Server.Response.error "No image provided")] :=
  ai_query_falsy_image _ _ (Json.str "") rfl rfl rfl

/-- Claim C8 as stated is false on the code: an envelope whose type is
present but unrecognized — here the concrete type "pong" — delivers nothing
at all to the registered callback, rather than the formatted "invalid
message format" text the claim promises; that text is keyed to a JSON
decode failure, not to an unrecognized discriminator. -/
theorem unrecognized_type_counterexample :
    Overlay.routeMessage (some (Json.obj [("type", Json.str "pong")])) = [] ∧
    Overlay.routeMessage (some (Json.obj [("type", Json.str "pong")])) ≠
      [Overlay.Delivery.invalidFormat] := by
  refine ⟨rfl, ?_⟩
  intro h
  have h0 : Overlay.routeMessage (some (Json.obj [("type", Json.str "pong")])) =
      ([] : List Overlay.Delivery) := rfl
  rw [h0] at h
  simp at h

/-- Claim C8 amended: routing in the listen loop is by discriminator, with
type ai_response delivering the answer field (defaulting to "No answer") and
type error delivering the formatted server-error text built from the message
field (defaulting to "Unknown error"); but an envelope with an unrecognized
type delivers nothing at all (it is silently dropped), and the formatted
"invalid message format" text is delivered only for a received message that
fails JSON decoding. -/
theorem route_by_discriminator (fields : List (String × Json)) :
    (getField fields "type" = some (Json.str "ai_response") →
      Overlay.routeMessage (some (Json.obj fields)) =
        [Overlay.Delivery.answer (getFieldD fields "answer" (Json.str "No answer"))]) ∧
    (getField fields "type" = some (Json.str "error") →
      Overlay.routeMessage (some (Json.obj fields)) =
        [Overlay.Delivery.serverError (getFieldD fields "message" (Json.str "Unknown error"))]) ∧
    (∀ t : String, getField fields "type" = some (Json.str t) →
      t ≠ "ai_response" → t ≠ "error" →
      Overlay.routeMessage (some (Json.obj fields)) = []) ∧
    (getField fields "type" = none →
      Overlay.routeMessage (some (Json.obj fields)) = []) ∧
    Overlay.routeMessage none = [Overlay.Delivery.invalidFormat] := by
  refine ⟨?_, ?_, ?_, ?_, rfl⟩
  · intro h; simp [Overlay.routeMessage, h]
  · intro h; simp [Overlay.routeMessage, h]
  · intro t h h1 h2; simp [Overlay.routeMessage, h, h1, h2]
  · intro h; simp [Overlay.routeMessage, h]

theorem route_by_discriminator_witness :
    Overlay.routeMessage
      (some (Json.obj [("type", Json.str "ai_response"), ("answer", Json.str "ok")])) =
      [Overlay.Delivery.answer
        (getFieldD [("type", Json.str "ai_response"), ("answer", Json.str "ok")]
          "answer" (Json.str "No answer"))] :=
  (route_by_discriminator _).1 rfl

/-- Once the listen loop has returned, it stays returned and emits nothing. -/
theorem runClient_stopped (env : Nat → Overlay.EnvInput) (n : Nat)
    (s : Overlay.ClientState) :
    Overlay.runClient env n (s, Overlay.Phase.stopped) =
      ((s, Overlay.Phase.stopped), []) := by
  induction n generalizing env with
  | zero => rfl
  | succ n ih => simp [Overlay.runClient, Overlay.stepClient, ih]

/-- Claim C9: when stop() is called while the client is mid-backoff sleep,
no further connection attempt is ever made, and the retry loop terminates
within one polling quantum: the current sleep finishes, the while condition
is re-checked once, and the loop returns — two steps, whatever the
environment does afterwards. -/
theorem stop_during_backoff (env : Nat → Overlay.EnvInput)
    (s : Overlay.ClientState) (n : Nat) :
    Overlay.ClientEvent.connectAttempt ∉
      (Overlay.runClient env n (Overlay.stop s, Overlay.Phase.backoffSleep)).2 ∧
    (2 ≤ n →
      (Overlay.runClient env n (Overlay.stop s, Overlay.Phase.backoffSleep)).1.2 =
        Overlay.Phase.stopped) := by
  rcases n with _ | _ | n
  · exact ⟨by simp [Overlay.runClient], by omega⟩
  · constructor
    · simp [Overlay.runClient, Overlay.stepClient, Overlay.stop]
    · omega
  · constructor
    · simp [Overlay.runClient, Overlay.stepClient, Overlay.stop, runClient_stopped]
    · intro _
      simp [Overlay.runClient, Overlay.stepClient, Overlay.stop, runClient_stopped]

theorem stop_during_backoff_witness :
    Overlay.ClientEvent.connectAttempt ∉
      (Overlay.runClient (fun _ => Overlay.EnvInput.connectFail) 5
        (Overlay.stop ⟨true, 8⟩, Overlay.Phase.backoffSleep)).2 ∧
    (Overlay.runClient (fun _ => Overlay.EnvInput.connectFail) 5
      (Overlay.stop ⟨true, 8⟩, Overlay.Phase.backoffSleep)).1.2 =
      Overlay.Phase.stopped :=
  ⟨(stop_during_backoff (fun _ => Overlay.EnvInput.connectFail) ⟨true, 8⟩ 5).1,
   (stop_during_backoff (fun _ => Overlay.EnvInput.connectFail) ⟨true, 8⟩ 5).2
     (by omega)⟩

/-- Extra fuel changes nothing once the monitor loop has broken. -/
theorem mainLoop_stable (envS envO : Bool) (n : Nat) :
    ∀ (m : Nat) (s : Main.ManagerState),
      (Main.mainLoop envS envO n s).2.2 = true →
      Main.mainLoop envS envO (n + m) s = Main.mainLoop envS envO n s := by
  induction n with
  | zero => intro m s h; simp [Main.mainLoop] at h
  | succ n ih =>
      intro m s h
      have hadd : n + 1 + m = (n + m) + 1 := by omega
      rw [hadd]
      by_cases hit : (Main.mainIteration envS envO s).2.2
      · simp only [Main.mainLoop, hit, if_true] at h ⊢
        rw [ih m _ h]
      · simp [Main.mainLoop, hit]

/-- The concrete monitor-loop run in which every (re)launched server exits
immediately and the overlay stays healthy: three restarts, then give up. -/
theorem mainLoop_base :
    Main.mainLoop true false 4 ⟨0, 0, false, true⟩ =
      (⟨3, 0, false, true⟩,
       [.waitSecs 2, .launch "server", .waitSecs 3, .waitSecs 1,
        .waitSecs 2, .launch "server", .waitSecs 3, .waitSecs 1,
        .waitSecs 2, .launch "server", .waitSecs 3, .waitSecs 1,
        .giveUp "server"], true) := by decide

/-- Claim C2: when the supervised server exits immediately after every
(re)launch while the overlay stays healthy, the supervisor performs exactly
MAX_RESTART_ATTEMPTS restart launches, each immediately preceded by a wait
of RESTART_DELAY seconds, then gives the process up; a counter that has
reached the budget makes every further restart request refuse without
launching, so the process is never restarted again. -/
theorem restart_budget_exhaustion (fuel : Nat) (hfuel : 4 ≤ fuel) :
    Main.mainRun true false fuel ⟨0, 0, false, true⟩ =
      (⟨Main.MAX_RESTART_ATTEMPTS, 0, false, false⟩,
       [.waitSecs Main.RESTART_DELAY, .launch "server",
        .waitSecs Main.STARTUP_WAIT, .waitSecs 1,
        .waitSecs Main.RESTART_DELAY, .launch "server",
        .waitSecs Main.STARTUP_WAIT, .waitSecs 1,
        .waitSecs Main.RESTART_DELAY, .launch "server",
        .waitSecs Main.STARTUP_WAIT, .waitSecs 1,
        .giveUp "server", .terminateTree "Server", .terminateTree "Overlay"]) ∧
    (Main.mainRun true false fuel ⟨0, 0, false, true⟩).2.count
      (Main.SupAction.launch "server") = Main.MAX_RESTART_ATTEMPTS ∧
    Main.eachLaunchPreceded Main.RESTART_DELAY "server" none
      (Main.mainRun true false fuel ⟨0, 0, false, true⟩).2 = true ∧
    (∀ (e : Bool) (s : Main.ManagerState),
      Main.MAX_RESTART_ATTEMPTS ≤ Main.restartCount s Main.ProcName.server →
      Main.tryRestartProcess e s Main.ProcName.server =
        (false, s, [Main.SupAction.giveUp "server"])) := by
  obtain ⟨m, rfl⟩ : ∃ m, fuel = 4 + m := ⟨fuel - 4, by omega⟩
  have hbroke : (Main.mainLoop true false 4 ⟨0, 0, false, true⟩).2.2 = true := by
    rw [mainLoop_base]
  have hloop := mainLoop_stable true false 4 m ⟨0, 0, false, true⟩ hbroke
  have hrun : Main.mainRun true false (4 + m) ⟨0, 0, false, true⟩ =
      (⟨Main.MAX_RESTART_ATTEMPTS, 0, false, false⟩,
       [.waitSecs Main.RESTART_DELAY, .launch "server",
        .waitSecs Main.STARTUP_WAIT, .waitSecs 1,
        .waitSecs Main.RESTART_DELAY, .launch "server",
        .waitSecs Main.STARTUP_WAIT, .waitSecs 1,
        .waitSecs Main.RESTART_DELAY, .launch "server",
        .waitSecs Main.STARTUP_WAIT, .waitSecs 1,
        .giveUp "server", .terminateTree "Server", .terminateTree "Overlay"]) := by
    simp [Main.mainRun, hloop, mainLoop_base, Main.cleanup,
      Main.MAX_RESTART_ATTEMPTS, Main.RESTART_DELAY, Main.STARTUP_WAIT]
  refine ⟨hrun, ?_, ?_, ?_⟩
  · rw [hrun]; decide
  · rw [hrun]; decide
  · intro e s h
    simp [Main.tryRestartProcess, h, Main.scriptName]

theorem restart_budget_exhaustion_witness :
    Main.mainRun true false 4 ⟨0, 0, false, true⟩ =
      (⟨Main.MAX_RESTART_ATTEMPTS, 0, false, false⟩,
       [.waitSecs Main.RESTART_DELAY, .launch "server",
        .waitSecs Main.STARTUP_WAIT, .waitSecs 1,
        .waitSecs Main.RESTART_DELAY, .launch "server",
        .waitSecs Main.STARTUP_WAIT, .waitSecs 1,
        .waitSecs Main.RESTART_DELAY, .launch "server",
        .waitSecs Main.STARTUP_WAIT, .waitSecs 1,
        .giveUp "server", .terminateTree "Server", .terminateTree "Overlay"]) :=
  (restart_budget_exhaustion 4 (by omega)).1

/-- Claim C3 as stated is false on the code at this concrete run: the monitor
starts with the server just exited and the overlay alive; the server exhausts
its budget, the resulting break leaves the monitor loop, and the supervisor
finally-block cleanup terminates the overlay too — its liveness does not
survive the exhaustion of the sibling budget. -/
theorem sibling_terminated_counterexample :
    (⟨0, 0, false, true⟩ : Main.ManagerState).overlayAlive = true ∧
    (Main.mainRun true false 10 ⟨0, 0, false, true⟩).1.overlayAlive = false ∧
    Main.SupAction.terminateTree "Overlay" ∈
      (Main.mainRun true false 10 ⟨0, 0, false, true⟩).2 := by decide

/-- Claim C3 amended: the budget-exhaustion decision itself leaves the
sibling untouched — a restart request for the server never changes the
overlay counter or liveness — but its False result breaks the monitor loop,
and the cleanup the supervisor then always runs terminates the sibling as
well. -/
theorem exhaustion_frame_then_cleanup (e : Bool) (s : Main.ManagerState) :
    (Main.tryRestartProcess e s Main.ProcName.server).2.1.overlayAlive =
      s.overlayAlive ∧
    (Main.tryRestartProcess e s Main.ProcName.server).2.1.overlayRestarts =
      s.overlayRestarts ∧
    (Main.cleanup s).1.overlayAlive = false := by
  unfold Main.tryRestartProcess Main.cleanup
  split <;> simp [Main.setAlive, Main.bumpCount]

/-- Claim C4 as stated is false on the code at this concrete input: a live
parent that honors the terminate signal, with one live descendant that
ignores it.  The descendant survives cleanup, because the snapshot children
only ever receive the polite terminate, and the forceful-kill escalation
runs only when the parent itself fails to exit within the grace timeout. -/
theorem stubborn_child_survives :
    ¬ Main.treeDead (Main.killProcTree ⟨true, false⟩ [⟨true, true⟩]) := by decide

/-- Claim C4 amended: cleanup of a live ManagedProcess kills the whole tree
whenever the parent ignores the polite terminate signal — the graceful wait
then times out and the escalation forcefully kills all snapshot children and
the parent — and likewise whenever every descendant honors terminate; a
descendant that ignores terminate survives exactly when the parent exits
within the grace period, since escalation is gated on the parent wait only. -/
theorem killProcTree_amended (parent : Main.OSProc) (children : List Main.OSProc)
    (halive : parent.alive = true)
    (h : parent.ignoresTerm = true ∨ ∀ c ∈ children, c.ignoresTerm = false) :
    Main.treeDead (Main.killProcTree parent children) := by
  have hnot : ¬ parent.alive = false := by simp [halive]
  by_cases hit : parent.ignoresTerm = true
  · have hp : (Main.terminateProc parent).alive = true := by
      simp [Main.terminateProc, hit, halive]
    simp only [Main.killProcTree, if_neg hnot, if_pos hp, Main.treeDead]
    refine ⟨rfl, ?_⟩
    intro c hc
    rw [List.mem_map] at hc
    obtain ⟨x, _, rfl⟩ := hc
    rfl
  · have hall : ∀ c ∈ children, c.ignoresTerm = false := by
      rcases h with h | h
      · exact absurd h hit
      · exact h
    have hp : (Main.terminateProc parent).alive = false := by
      simp [Main.terminateProc, hit]
    have hcond : ¬ ((Main.terminateProc parent).alive = true) := by simp [hp]
    simp only [Main.killProcTree, if_neg hnot, if_neg hcond, Main.treeDead]
    refine ⟨hp, ?_⟩
    intro c hc
    rw [List.mem_map] at hc
    obtain ⟨x, hx, rfl⟩ := hc
    simp [Main.terminateProc, hall x hx]

theorem killProcTree_amended_witness :
    Main.treeDead (Main.killProcTree ⟨true, true⟩ [⟨true, true⟩, ⟨true, false⟩]) :=
  killProcTree_amended ⟨true, true⟩ [⟨true, true⟩, ⟨true, false⟩] rfl (Or.inl rfl)

end SnapAI
